import Mathlib

/-!
Verification of the reference-graph closure and selection engine of
`random_composition_generator.py`.

The Python program manipulates JSON values (dicts, lists, strings, numbers,
booleans, null).  We embed JSON as a mutual inductive type so that every
recursive walk of the Python source becomes a structurally recursive Lean
function.  Python's in-place mutations are modelled by pure functions
returning the updated value; `copy.deepcopy` is therefore the identity.
-/

mutual

inductive JSON where
  | null : JSON
  | bool : Bool → JSON
  | num : Int → JSON
  | str : String → JSON
  | arr : JArr → JSON
  | obj : JObj → JSON

inductive JArr where
  | nil : JArr
  | cons : JSON → JArr → JArr

inductive JObj where
  | nil : JObj
  | cons : String → JSON → JObj → JObj

end

/-- Build a JSON array from a Lean list of members. -/
def JArr.ofList : List JSON → JArr
  | [] => .nil
  | x :: xs => .cons x (JArr.ofList xs)

/-- Flatten a JSON array into a Lean list of members. -/
def JArr.toList : JArr → List JSON
  | .nil => []
  | .cons x xs => x :: JArr.toList xs

/-- Build a JSON object from a Lean list of fields (insertion order kept,
mirroring Python dicts). -/
def JObj.ofList : List (String × JSON) → JObj
  | [] => .nil
  | (k, v) :: xs => .cons k v (JObj.ofList xs)

/-- Object literal helper. -/
def jobj (kvs : List (String × JSON)) : JSON := .obj (JObj.ofList kvs)

/-- Array literal helper. -/
def jarr (xs : List JSON) : JSON := .arr (JArr.ofList xs)

/-- `o.get(k)` on a Python dict: first field with the given key. -/
def JObj.get : JObj → String → Option JSON
  | .nil, _ => none
  | .cons k v rest, k' => if k = k' then some v else JObj.get rest k'

/-- `k in o` on a Python dict. -/
def JObj.hasKey (o : JObj) (k : String) : Bool := (o.get k).isSome

/-- `d.get(k)` for a JSON value that is expected to be a dict; `none` when the
value is not a dict (the Python code would raise `AttributeError` there —
call sites that can reach that case model it explicitly). -/
def jGet : JSON → String → Option JSON
  | .obj o, k => o.get k
  | _, _ => none

/-- Python truthiness of a JSON value (`if x:`). -/
def pyTruthy : JSON → Bool
  | .null => false
  | .bool b => b
  | .num n => n != 0
  | .str s => s ≠ ""
  | .arr a => match a with | .nil => false | _ => true
  | .obj o => match o with | .nil => false | _ => true

/-- Python `str.startswith`: the candidate prefix's characters lead the
string's characters. -/
def pyStartsWith (s pre : String) : Bool := pre.data.isPrefixOf s.data

/-- Rendering used by the Python f-strings in issue messages; on the string
values actually reached by the program it is the identity. -/
def jstr : JSON → String
  | .str s => s
  | .num n => toString n
  | .bool true => "True"
  | .bool false => "False"
  | .null => "None"
  | .arr _ => "[...]"
  | .obj _ => "{...}"

/-! ### The reference regex

`REF_RE = re.compile(r"([A-Za-z]+)\/([A-Za-z0-9\-\._]+)$")`, always used via
`REF_RE.search(s)`.  `search` scans start positions left to right; at a
position the greedy `[A-Za-z]+` run must be followed by `/` and the rest of
the string must be a non-empty run of id characters reaching the end
(backtracking inside the alphabetic run cannot produce the `/`, and the `$`
anchor forces the id run to cover the whole tail). -/

def isAlphaAZ (c : Char) : Bool :=
  ('A' ≤ c && c ≤ 'Z') || ('a' ≤ c && c ≤ 'z')

def isRefIdChar (c : Char) : Bool :=
  isAlphaAZ c || ('0' ≤ c && c ≤ '9') || c = '-' || c = '.' || c = '_'

/-- Try to match `([A-Za-z]+)/([A-Za-z0-9\-._]+)$` at the head of the
character list. -/
def refMatchAt (cs : List Char) : Option (String × String) :=
  let ty := cs.takeWhile isAlphaAZ
  let rest := cs.dropWhile isAlphaAZ
  match rest with
  | '/' :: tail =>
      if ty ≠ [] && tail ≠ [] && tail.all isRefIdChar then
        some (String.mk ty, String.mk tail)
      else none
  | _ => none

/-- `REF_RE.search`: leftmost start position admitting a match. -/
def refSearchAux : List Char → Option (String × String)
  | [] => none
  | c :: cs =>
      match refMatchAt (c :: cs) with
      | some r => some r
      | none => refSearchAux cs

/-- `REF_RE.search(s)`, returning `(m.group(1), m.group(2))` on success. -/
def REF_RE_search (s : String) : Option (String × String) :=
  refSearchAux s.data

/-- A resource key `(type, id)`. -/
abbrev RKey := String × String

/-! ### `find_reference_strings`

The Python function accumulates `(type, id)` pairs into a set while walking
dicts and lists; bare strings inside lists are not inspected (`_walk` on a
`str` does nothing).  We collect occurrences in traversal order and collapse
duplicates keeping the first occurrence; the resulting *set* of keys is
exactly the Python set. -/

mutual

def findRefsJ : JSON → List RKey
  | .obj o =>
      (match o.get "reference" with
       | some (.str s) =>
           match REF_RE_search s with
           | some k => [k]
           | none => []
       | _ => []) ++ findRefsO o
  | .arr a => findRefsA a
  | _ => []

def findRefsO : JObj → List RKey
  | .nil => []
  | .cons _ (.str s) rest =>
      (match REF_RE_search s with
       | some k => [k]
       | none => []) ++ findRefsO rest
  | .cons _ v rest => findRefsJ v ++ findRefsO rest

def findRefsA : JArr → List RKey
  | .nil => []
  | .cons x rest => findRefsJ x ++ findRefsA rest

end

/-- `find_reference_strings(obj)`: the set of referenced keys, represented as
the duplicate-free list of first occurrences. -/
def find_reference_strings (j : JSON) : List RKey :=
  (findRefsJ j).dedup

/-! ### `_normalize_patient_refs_in_resource`

Rewrites, in place, every dict value that is a string starting with
`"Patient/"` (whatever its key) to the synthetic patient reference; recurses
into every other dict value and into list items.  Strings that are list
items or the argument itself are untouched. -/

mutual

def normalize_patient_refs_in_resource (r : String) : JSON → JSON
  | .obj o => .obj (normPatO r o)
  | .arr a => .arr (normPatA r a)
  | j => j

def normPatO (r : String) : JObj → JObj
  | .nil => .nil
  | .cons k (.str s) rest =>
      .cons k (.str (if pyStartsWith s "Patient/" then r else s)) (normPatO r rest)
  | .cons k v rest => .cons k (normalize_patient_refs_in_resource r v) (normPatO r rest)

def normPatA (r : String) : JArr → JArr
  | .nil => .nil
  | .cons x rest => .cons (normalize_patient_refs_in_resource r x) (normPatA r rest)

end

/-! ### `normalize_patient_refs_in_bundle`

The optional-mapping rewrite pass.  Only dict values under a key literally
named `"reference"` that are strings starting with `"Patient/"` are eligible;
a truthy (non-empty) mapping containing the value rewrites it, otherwise a
truthy (non-empty) canonical reference does.  `if mapping is None and
canonical is None: return bundle` short-circuits the whole walk. -/

/-- Python dict lookup `mapping[v]` / membership `v in mapping` over the
mapping table, modelled as an association list. -/
def pyLookup : List (String × String) → String → Option String
  | [], _ => none
  | (k, w) :: rest, v => if k = v then some w else pyLookup rest v

/-- The value written for an eligible `"reference"` attribute:
`if mapping and v in mapping: mapping[v] elif canonical: canonical` else the
value is left alone. -/
def nprbValue (mapping : Option (List (String × String))) (canonical : Option String)
    (v : String) : String :=
  let elseBranch := match canonical with
    | some c => if c = "" then v else c
    | none => v
  match mapping with
  | some m =>
      if m ≠ [] then
        match pyLookup m v with
        | some w => w
        | none => elseBranch
      else elseBranch
  | none => elseBranch

mutual

def nprbJ (mapping : Option (List (String × String))) (canonical : Option String) : JSON → JSON
  | .obj o => .obj (nprbO mapping canonical o)
  | .arr a => .arr (nprbA mapping canonical a)
  | j => j

def nprbO (mapping : Option (List (String × String))) (canonical : Option String) : JObj → JObj
  | .nil => .nil
  | .cons k (.str s) rest =>
      if k = "reference" && pyStartsWith s "Patient/" then
        .cons k (.str (nprbValue mapping canonical s)) (nprbO mapping canonical rest)
      else
        .cons k (.str s) (nprbO mapping canonical rest)
  | .cons k v rest => .cons k (nprbJ mapping canonical v) (nprbO mapping canonical rest)

def nprbA (mapping : Option (List (String × String))) (canonical : Option String) : JArr → JArr
  | .nil => .nil
  | .cons x rest => .cons (nprbJ mapping canonical x) (nprbA mapping canonical rest)

end

/-- `normalize_patient_refs_in_bundle(bundle, mapping, canonical)`. -/
def normalize_patient_refs_in_bundle (bundle : JSON)
    (mapping : Option (List (String × String))) (canonical : Option String) : JSON :=
  match mapping, canonical with
  | none, none => bundle
  | _, _ => nprbJ mapping canonical bundle

/-! ### `structural_validate_bundle`

The validator is pure in the sense that it only reads the bundle, but it is a
dynamically-typed Python function: on malformed inputs it raises
(`AttributeError` on `.get` of a non-dict or `.startswith` of a non-string,
`TypeError` on `in`/iteration over non-containers and on hashing an
unhashable value into or against the `present` set).  We model it in
`Except String`, producing `.error` exactly where the Python code raises.
One note for a corner the claims never reach: iterating a non-empty string
or dict yields string elements whose `.get` raises at once, so both collapse
to `.error`.  The `present` set holds whatever hashable values were recorded
(strings always; a truthy numeric or boolean `fullUrl` is stored as-is),
with Python equality identifying `True`/`1` and `False`/`0`. -/

structure Issue where
  severity : String
  detail : String
deriving DecidableEq, Repr

/-- `for x in v:` where the loop body immediately calls `.get` on each
element (the only way iteration is used in the validator). -/
def iterSeq : JSON → Except String (List JSON)
  | .arr a => .ok a.toList
  | .str s => if s = "" then .ok [] else .error "AttributeError: str has no attribute get"
  | .obj o => match o with
      | .nil => .ok []
      | _ => .error "AttributeError: str has no attribute get"
  | _ => .error "TypeError: object is not iterable"

/-- Contiguous-sublist test on character lists. -/
def listContainsSub (sub : List Char) : List Char → Bool
  | [] => sub.isPrefixOf []
  | c :: t => sub.isPrefixOf (c :: t) || listContainsSub sub t

/-- Python `sub in s` on strings (substring containment). -/
def pyInStr (s sub : String) : Bool := listContainsSub sub.data s.data

/-- Python `x in l` where `x` is a string and `l` a JSON list. -/
def jarrHasStr : JArr → String → Bool
  | .nil, _ => false
  | .cons (.str s) rest, t => s = t || jarrHasStr rest t
  | .cons _ rest, t => jarrHasStr rest t

/-- Python `==` between the hashable values that can reach the `present`
set (str, int, bool, None); booleans compare equal to the matching ints. -/
def pyEqHash : JSON → JSON → Bool
  | .str s, .str t => s = t
  | .num a, .num b => a = b
  | .bool a, .bool b => a = b
  | .bool b, .num n => if b then n = 1 else n = 0
  | .num n, .bool b => if b then n = 1 else n = 0
  | .null, .null => true
  | _, _ => false

/-- Python `v in present` for a hashable `v`. -/
def pyMem (present : List JSON) (v : JSON) : Bool :=
  present.any (fun w => pyEqHash v w)

/-- One step of the first validator loop: record the entry's full identifier
in `present` (`present.add(full)` raises `TypeError` on an unhashable list or
dict value and stores any other truthy value as-is) or report the entry,
raising where Python would. -/
def validateEntryPresent (acc : List Issue × List JSON) (e : JSON) :
    Except String (List Issue × List JSON) :=
  match e with
  | .obj eo =>
      let noneIssue : Issue := ⟨"error", "entry with no fullUrl and no resource id"⟩
      let res := (eo.get "resource").getD .null
      let fallback : Except String (List Issue × List JSON) :=
        if pyTruthy res then
          match res with
          | .obj ro =>
              if ro.hasKey "resourceType" && ro.hasKey "id" then
                .ok (acc.1, acc.2 ++ [.str (jstr ((ro.get "resourceType").getD .null) ++ "/" ++
                                            jstr ((ro.get "id").getD .null))])
              else .ok (acc.1 ++ [noneIssue], acc.2)
          | .str s =>
              if pyInStr s "resourceType" && pyInStr s "id" then
                .error "TypeError: string indices must be integers"
              else .ok (acc.1 ++ [noneIssue], acc.2)
          | .arr a =>
              if jarrHasStr a "resourceType" && jarrHasStr a "id" then
                .error "TypeError: list indices must be integers"
              else .ok (acc.1 ++ [noneIssue], acc.2)
          | _ => .error "TypeError: argument of type is not iterable"
        else .ok (acc.1 ++ [noneIssue], acc.2)
      match eo.get "fullUrl" with
      | some fv =>
          if pyTruthy fv then
            match fv with
            | .arr _ => .error "TypeError: unhashable type: list"
            | .obj _ => .error "TypeError: unhashable type: dict"
            | v => .ok (acc.1, acc.2 ++ [v])
          else fallback
      | none => fallback
  | _ => .error "AttributeError: object has no attribute get"

/-- The composition search: first entry whose resource's `resourceType` is
`"Composition"`; `e.get("resource",{}).get(...)` raises on a non-dict
resource value. -/
def findComp : List JSON → Except String (Option JObj)
  | [] => .ok none
  | e :: rest =>
      match e with
      | .obj eo =>
          match eo.get "resource" with
          | none => findComp rest
          | some (.obj ro) =>
              match ro.get "resourceType" with
              | some (.str t) => if t = "Composition" then .ok (some ro) else findComp rest
              | _ => findComp rest
          | some _ => .error "AttributeError: object has no attribute get"
      | _ => .error "AttributeError: object has no attribute get"

/-- `subj = comp.get("subject",{}).get("reference")`. -/
def getSubj (comp : JObj) : Except String (Option JSON) :=
  match comp.get "subject" with
  | none => .ok none
  | some (.obj so) => .ok (so.get "reference")
  | some _ => .error "AttributeError: object has no attribute get"

/-- The subject checks: `subj not in present` raises `TypeError` on an
unhashable subject value, and `subj.startswith` raises `AttributeError`
when a non-string subject is found in `present`. -/
def subjIssues (present : List JSON) (subj : Option JSON) : Except String (List Issue) :=
  match subj with
  | none => .ok [⟨"error", "Composition.subject missing"⟩]
  | some v =>
      if pyTruthy v then
        match v with
        | .arr _ => .error "TypeError: unhashable type: list"
        | .obj _ => .error "TypeError: unhashable type: dict"
        | v =>
            if pyMem present v then
              match v with
              | .str s =>
                  if pyStartsWith s "Patient/" then .ok []
                  else .ok [⟨"warning", "Composition.subject " ++ s ++
                                        " is not a Patient reference"⟩]
              | _ => .error "AttributeError: object has no attribute startswith"
            else .ok [⟨"error", "Composition.subject " ++ jstr v ++
                               " not present as resource in bundle"⟩]
      else .ok [⟨"error", "Composition.subject missing"⟩]

/-- One section-entry reference check: `ref not in present` raises
`TypeError` on an unhashable (list/dict) reference value. -/
def refIssue (present : List JSON) (r : Option JSON) : Except String (List Issue) :=
  match r with
  | none => .ok []
  | some v =>
      if pyTruthy v then
        match v with
        | .arr _ => .error "TypeError: unhashable type: list"
        | .obj _ => .error "TypeError: unhashable type: dict"
        | v =>
            if pyMem present v then .ok []
            else .ok [⟨"error", "Reference " ++ jstr v ++
                               " in composition.section not present in bundle"⟩]
      else .ok []

/-- The `composition.section` reference checks. -/
def sectionIssues (present : List JSON) (comp : JObj) : Except String (List Issue) := do
  let secs ← iterSeq ((comp.get "section").getD (jarr []))
  secs.foldlM (fun acc sec =>
    match sec with
    | .obj so => do
        let es ← iterSeq ((so.get "entry").getD (jarr []))
        es.foldlM (fun acc2 e =>
          match e with
          | .obj eo => do
              let is ← refIssue present (eo.get "reference")
              Except.ok (acc2 ++ is)
          | _ => Except.error "AttributeError: object has no attribute get") acc
    | _ => Except.error "AttributeError: object has no attribute get") []

mutual

def pvJ (present : List JSON) (lbl : String) : JSON → List Issue
  | .obj o => pvO present lbl o
  | .arr a => pvA present lbl a
  | _ => []

def pvO (present : List JSON) (lbl : String) : JObj → List Issue
  | .nil => []
  | .cons k (.str s) rest =>
      (if k = "reference" && pyStartsWith s "Patient/" then
        if pyMem present (.str s) then []
        else [⟨"error", "Patient reference " ++ s ++ " in resource " ++ lbl ++
                        " not present in bundle"⟩]
      else []) ++ pvO present lbl rest
  | .cons _ v rest => pvJ present lbl v ++ pvO present lbl rest

def pvA (present : List JSON) (lbl : String) : JArr → List Issue
  | .nil => []
  | .cons x rest => pvJ present lbl x ++ pvA present lbl rest

end

/-- The final pass: every `Patient/` reference inside any dict resource must
be present.  Non-dict resources are skipped (`isinstance(res, dict)`). -/
def patientIssues (present : List JSON) (entries : List JSON) : List Issue :=
  entries.foldl (fun acc e =>
    match e with
    | .obj eo =>
        match eo.get "resource" with
        | some (.obj ro) =>
            acc ++ pvJ present
              (jstr ((ro.get "resourceType").getD .null) ++ "/" ++
               jstr ((ro.get "id").getD .null)) (.obj ro)
        | _ => acc
    | _ => acc) []

/-- `structural_validate_bundle(bundle)`: accumulate all structural issues,
raising exactly where the Python code would raise. -/
def structural_validate_bundle (bundle : JSON) : Except String (List Issue) := do
  let entries ← match bundle with
    | .obj bo => iterSeq ((bo.get "entry").getD (jarr []))
    | _ => Except.error "AttributeError: object has no attribute get"
  let acc ← entries.foldlM validateEntryPresent ([], [])
  let issues1 := acc.1
  let present := acc.2
  let comp ← findComp entries
  match comp with
  | none =>
      Except.ok ((issues1 ++ [⟨"error", "No Composition in Bundle"⟩]) ++
        patientIssues present entries)
  | some co => do
      let subj ← getSubj co
      let si ← subjIssues present subj
      let issues2 := issues1 ++ si
      let issues3 ← sectionIssues present co
      Except.ok ((issues2 ++ issues3) ++ patientIssues present entries)

/-! ### `include_resource_and_children` (the Closure Builder)

State is the bundle's entry list (full identifier, resource body) plus the
`bundle_fullUrls` set (duplicate-free in insertion order).  `copy.deepcopy`
is the identity on pure values.  The recursion depth is bounded by an
explicit `fuel` parameter; the Python call terminates because every
recursive step first inserts a fresh full identifier drawn from the finite
index, so any `fuel` past the index size is enough, and every property
proved below holds for every `fuel`.  The iteration order of the Python
`set` of scanned references is unspecified; the model fixes first-occurrence
order, which determines the same set of included resources.  A missing
`resourceType`/`id` field would raise `KeyError` in Python; the index
invariant (`key = (resource["resourceType"], resource["id"])`) rules it out
and the model renders via `jstr` with a `None` default. -/

structure BuildSt where
  entries : List (String × JSON)
  fullUrls : List String

/-- `key in resources_by_key` / `resources_by_key[key]`. -/
def lookupKey : List (RKey × JSON) → RKey → Option JSON
  | [], _ => none
  | (k, v) :: rest, key => if k = key then some v else lookupKey rest key

def fullUrlOfRes (res : JSON) : String :=
  jstr ((jGet res "resourceType").getD .null) ++ "/" ++ jstr ((jGet res "id").getD .null)

def include_resource_and_children :
    Nat → List (RKey × JSON) → RKey → BuildSt → Option String → BuildSt
  | 0, _, _, st, _ => st
  | fuel + 1, resources_by_key, key, st, synthetic_patient_ref =>
      match lookupKey resources_by_key key with
      | none => st
      | some res =>
          let fullUrl := fullUrlOfRes res
          if st.fullUrls.contains fullUrl then st
          else
            let res_copy := match synthetic_patient_ref with
              | some r => normalize_patient_refs_in_resource r res
              | none => res
            let st1 : BuildSt :=
              ⟨st.entries ++ [(fullUrl, res_copy)], st.fullUrls ++ [fullUrl]⟩
            (find_reference_strings res_copy).foldl
              (fun acc ck =>
                if (lookupKey resources_by_key ck).isSome then
                  include_resource_and_children fuel resources_by_key ck acc
                    synthetic_patient_ref
                else acc)
              st1

/-! ### `build_composition_and_bundle`

Every random draw of the Python function is made an explicit parameter:
the chosen composition template (`random.choice(compositions_list)` or
`None`), the synthetic-patient draws, the generated identifiers, the
timestamp renderings, the sampled section list and the per-section entry
sampler, and — because their numeric values are floating-point Gaussian
draws, outside this embedding — the generated vitals/labs observation
bodies used when `randomize_values` is set.  File output (lines 481-486)
is I/O and not part of the value model. -/

def generate_synthetic_patient (pid gender : String) (byear : Int) : JSON :=
  jobj [("resourceType", .str "Patient"),
        ("id", .str pid),
        ("name", jarr [jobj [("use", .str "official"),
                             ("family", .str ("Synthetic-" ++ String.mk (pid.data.take 8))),
                             ("given", jarr [.str "Patient"])]]),
        ("gender", .str gender),
        ("birthDate", .str (toString byear ++ "-01-01")),
        ("identifier", jarr [jobj [("system", .str "urn:synthetic"),
                                   ("value", .str pid)]])]

/-- The placeholder for a selected key absent from the index. -/
def mkPlaceholder (rtype rid synthetic_patient_ref : String) : JSON :=
  jobj ([("resourceType", .str rtype), ("id", .str rid)] ++
    (if ["Observation", "Procedure", "Encounter", "Specimen", "ServiceRequest",
         "ImagingStudy", "DiagnosticReport"].contains rtype then
      [("subject", jobj [("reference", .str synthetic_patient_ref)])]
    else []))

/-- `sec.get(k, [])` then list iteration (always a list in reach). -/
def jGetList (j : JSON) (k : String) : List JSON :=
  match jGet j k with
  | some (.arr a) => a.toList
  | _ => []

/-- One selected entry of one section (lines 381-389): parse its
`"reference"` against the reference pattern, append the rebuilt entry and
record its key in `selected_keys`. -/
def section_entry_step (ea : List JSON × List RKey) (e : JSON) : List JSON × List RKey :=
  match e with
  | .obj eo =>
      match eo.get "reference" with
      | some (.str ref) =>
          match REF_RE_search ref with
          | some (rtype, rid) =>
              (ea.1 ++ [jobj [("reference", .str (rtype ++ "/" ++ rid))]],
               if ea.2.contains (rtype, rid) then ea.2
               else ea.2 ++ [(rtype, rid)])
          | none => ea
      | _ => ea
  | _ => ea

/-- One selected section (lines 370-395): fold its selected entries, then
keep the section only when it gathered at least one entry. -/
def build_section_step (select_entries : List JSON → List JSON)
    (acc : List JSON × List RKey) (sec : JSON) : List JSON × List RKey :=
  let template_entries := jGetList sec "entry"
  let selected_entries := select_entries template_entries
  let eacc := selected_entries.foldl section_entry_step ([], acc.2)
  if eacc.1.isEmpty = false then
    (acc.1 ++ [jobj [("title", (jGet sec "title").getD (.str "Section")),
                     ("entry", jarr eacc.1)]], eacc.2)
  else (acc.1, eacc.2)

/-- The section-building pass (lines 356-408).  `selected_sections` models
`random.sample(template_sections, min(len, n_sections))` and
`select_entries` models `random.sample(template_entries, min(len, n_entries))`
for each section; `fallback_encounter_id`/`fallback_observation_id` model the
two `uuid4()` draws of the no-template fallback.  `selected_keys` is the
Python set in insertion order.  Returns `(composition_sections,
selected_keys)`. -/
def build_sections (composition_template : Option JSON)
    (selected_sections : List JSON)
    (select_entries : List JSON → List JSON)
    (fallback_encounter_id fallback_observation_id : String) :
    List JSON × List RKey :=
  let fallback : List JSON × List RKey :=
    ([jobj [("title", .str "Synthetic Episode"),
            ("entry", jarr [jobj [("reference",
              .str ("Encounter/" ++ fallback_encounter_id))]])],
      jobj [("title", .str "Synthetic Observations"),
            ("entry", jarr [jobj [("reference",
              .str ("Observation/" ++ fallback_observation_id))]])]], [])
  match composition_template with
  | none => fallback
  | some t =>
      if pyTruthy t && (match t with | .obj o => o.hasKey "section" | _ => false) then
        selected_sections.foldl (build_section_step select_entries) ([], [])
      else fallback

def mkEntryJSON (p : String × JSON) : JSON :=
  jobj [("fullUrl", .str p.1), ("resource", p.2)]

def mkBundleJSON (ts : String) (entries : List (String × JSON)) : JSON :=
  jobj [("resourceType", .str "Bundle"),
        ("type", .str "document"),
        ("timestamp", .str ts),
        ("entry", jarr (entries.map mkEntryJSON))]

/-- The bundle's entry list. -/
def jEntriesOf (b : JSON) : List JSON := jGetList b "entry"

/-- Replace the value stored under an existing key (Python dict item
assignment; `"entry"` always exists where this is used). -/
def JObj.setKey : JObj → String → JSON → JObj
  | .nil, _, _ => .nil
  | .cons k v rest, k', v' =>
      if k = k' then .cons k v' rest else .cons k v (JObj.setKey rest k' v')

def jSetEntries (b : JSON) (es : List JSON) : JSON :=
  match b with
  | .obj o => .obj (o.setKey "entry" (jarr es))
  | j => j

/-- The post-normalization placeholder pass (lines 461-475): walk the
(aliased, already normalized) composition's sections and make sure every
section-entry reference is present, expanding via the Closure Builder or a
placeholder.  Returns the pairs appended to `bundle["entry"]` and the
updated `bundle_fullUrls`. -/
def ensure_section_refs (fuel : Nat) (resources_by_key : List (RKey × JSON))
    (synthetic_patient_ref : String) (sections : List JSON)
    (fullUrls : List String) : List (String × JSON) × List String :=
  sections.foldl (fun acc sec =>
    (jGetList sec "entry").foldl (fun (acc : List (String × JSON) × List String) e =>
      match jGet e "reference" with
      | some (.str r) =>
          match REF_RE_search r with
          | some (rtype, rid) =>
              let fullUrl := rtype ++ "/" ++ rid
              if acc.2.contains fullUrl then acc
              else if (lookupKey resources_by_key (rtype, rid)).isSome then
                let st := include_resource_and_children fuel resources_by_key
                  (rtype, rid) ⟨acc.1, acc.2⟩ (some synthetic_patient_ref)
                (st.entries, st.fullUrls)
              else
                (acc.1 ++ [(fullUrl, mkPlaceholder rtype rid synthetic_patient_ref)],
                 acc.2 ++ [fullUrl])
          | none => acc
      | _ => acc) acc) ([], fullUrls)

/-- The loop over `list(selected_keys)` (lines 423-432): expand a key present
in the index through the Closure Builder, else append a minimal placeholder
(no full-identifier check on this append, mirroring the source). -/
def include_selected_keys (fuel : Nat) (resources_by_key : List (RKey × JSON))
    (synthetic_patient_ref : String) (keys : List RKey) (st : BuildSt) : BuildSt :=
  keys.foldl (fun st key =>
    if (lookupKey resources_by_key key).isSome then
      include_resource_and_children fuel resources_by_key key st
        (some synthetic_patient_ref)
    else
      ⟨st.entries ++ [(key.1 ++ "/" ++ key.2,
          mkPlaceholder key.1 key.2 synthetic_patient_ref)],
       st.fullUrls ++ [key.1 ++ "/" ++ key.2]⟩) st

/-- The `randomize_values` branch (lines 443-455): append each generated
observation under `Observation/<id>` unless that full identifier is taken. -/
def append_random_observations (extra_obs : List JSON) (st : BuildSt) : BuildSt :=
  extra_obs.foldl (fun (st : BuildSt) v =>
    let full := "Observation/" ++ jstr ((jGet v "id").getD .null)
    if st.fullUrls.contains full then st
    else ⟨st.entries ++ [(full, v)], st.fullUrls ++ [full]⟩) st

/-- The Composition resource built at lines 337-354 (with
`composition["section"]` already set to the built sections, line 408). -/
def mk_composition (comp_id now_title now_date synthetic_patient_ref : String)
    (sections : List JSON) : JSON :=
  jobj
    [("resourceType", .str "Composition"),
     ("id", .str comp_id),
     ("status", .str "final"),
     ("type", jobj [("coding", jarr [jobj
        [("system", .str "http://loinc.org"),
         ("code", .str "11506-3"),
         ("display", .str "Clinical Document")]])]),
     ("title", .str ("Synthetic Composition Document (" ++ now_title ++ "Z)")),
     ("date", .str (now_date ++ "Z")),
     ("author", jarr [jobj [("display", .str "SyntheticGenerator")]]),
     ("subject", jobj [("reference", .str synthetic_patient_ref)]),
     ("section", jarr sections)]

/-- The bundle's initial entries and full-identifier set (lines 410-420):
the Composition first, then the synthetic patient. -/
def initial_bundle_state (comp_id : String) (composition : JSON)
    (synthetic_patient_ref : String) (synthetic_patient : JSON) : BuildSt :=
  ⟨[("Composition/" ++ comp_id, composition), (synthetic_patient_ref, synthetic_patient)],
   ["Composition/" ++ comp_id, synthetic_patient_ref]⟩

/-- `build_composition_and_bundle`, returning the final bundle value (the
returned composition is, by Python aliasing, the first entry's resource).
All claims below hold for every `fuel`, or are evaluated at ample fuel. -/
def build_composition_and_bundle
    (resources_by_key : List (RKey × JSON))
    (composition_template : Option JSON)
    (pid gender : String) (byear : Int)
    (comp_uuid now_title now_date ts : String)
    (selected_sections : List JSON)
    (select_entries : List JSON → List JSON)
    (fallback_encounter_id fallback_observation_id : String)
    (randomize_values : Bool) (extra_obs : List JSON)
    (fuel : Nat) : JSON :=
  let synthetic_patient := generate_synthetic_patient pid gender byear
  let synthetic_patient_ref := "Patient/" ++ pid
  let comp_id := "generated-comp-" ++ comp_uuid
  let secKeys := build_sections composition_template selected_sections select_entries
    fallback_encounter_id fallback_observation_id
  let composition := mk_composition comp_id now_title now_date synthetic_patient_ref secKeys.1
  let st0 := initial_bundle_state comp_id composition synthetic_patient_ref synthetic_patient
  let st1 := include_selected_keys fuel resources_by_key synthetic_patient_ref
    secKeys.2 st0
  let st2 := if randomize_values then append_random_observations extra_obs st1 else st1
  let bundle2 := normalize_patient_refs_in_resource synthetic_patient_ref
    (mkBundleJSON ts st2.entries)
  let comp' := match jEntriesOf bundle2 with
    | e :: _ => (jGet e "resource").getD .null
    | [] => .null
  let extra := ensure_section_refs fuel resources_by_key synthetic_patient_ref
    (jGetList comp' "section") st2.fullUrls
  let bundle3 := jSetEntries bundle2 (jEntriesOf bundle2 ++ extra.1.map mkEntryJSON)
  normalize_patient_refs_in_resource synthetic_patient_ref bundle3

/-- Full identifier of a bundle entry, when it is a string. -/
def entryFullUrl (e : JSON) : Option String :=
  match jGet e "fullUrl" with
  | some (.str s) => some s
  | _ => none

/-- The full identifiers of all bundle entries, in order. -/
def entry_fullUrls (b : JSON) : List (Option String) :=
  (jEntriesOf b).map entryFullUrl

/-- The embedded resource of a bundle entry. -/
def entryResource (e : JSON) : JSON := (jGet e "resource").getD .null

/-- The composition returned by `build_composition_and_bundle` (aliased to
the first bundle entry's resource). -/
def returned_composition (b : JSON) : JSON :=
  match jEntriesOf b with
  | e :: _ => entryResource e
  | [] => .null

def resourceTypeOf (j : JSON) : Option JSON := jGet j "resourceType"

def subjectRefOf (c : JSON) : Option JSON := jGet ((jGet c "subject").getD .null) "reference"

/-! ### Auxiliary definitions used only by claim statements -/

/-- Concatenation of JSON arrays. -/
def JArr.append : JArr → JArr → JArr
  | .nil, b => b
  | .cons x rest, b => .cons x (JArr.append rest b)

/-- The `"reference"` value of an object, when present, is a string. -/
def wellShapedRef (o : JObj) : Bool :=
  match o.get "reference" with
  | none => true
  | some (.str _) => true
  | some _ => false

/-- Well-shapedness of a section object for the validator: its `"entry"`
value, when present, is a list of dicts whose `"reference"` values, when
present, are strings. -/
def wellShapedSection (sec : JSON) : Bool :=
  match sec with
  | .obj so =>
      match so.get "entry" with
      | none => true
      | some (.arr es) =>
          es.toList.all (fun e => match e with | .obj eo => wellShapedRef eo | _ => false)
      | some _ => false
  | _ => false

/-- Well-shapedness of one bundle entry for the validator: a dict whose
`"fullUrl"` value, when present, is a string, and whose `"resource"` value,
when present, is a dict whose `"subject"` is absent or a dict with a
string-or-absent `"reference"` and whose `"section"` is absent or a list of
well-shaped sections. -/
def wellShapedEntry (e : JSON) : Bool :=
  match e with
  | .obj eo =>
      (match eo.get "fullUrl" with
       | none => true
       | some (.str _) => true
       | some _ => false) &&
      (match eo.get "resource" with
       | none => true
       | some (.obj ro) =>
           (match ro.get "subject" with
            | none => true
            | some (.obj so) => wellShapedRef so
            | some _ => false) &&
           (match ro.get "section" with
            | none => true
            | some (.arr secs) => secs.toList.all wellShapedSection
            | some _ => false)
       | some _ => false)
  | _ => false

/-- Well-shapedness of a bundle for the validator: a dict whose `"entry"`
value, when present, is a list of well-shaped entries.  Every bundle the
generator produces has this shape. -/
def wellShapedBundle (b : JSON) : Bool :=
  match b with
  | .obj bo =>
      match bo.get "entry" with
      | none => true
      | some (.arr es) => es.toList.all wellShapedEntry
      | some _ => false
  | _ => false

/-! The next three definitions follow the words of the amended claim for the
mapping pass (refinement target), not the source: rewrite precisely those
string values that occur under an attribute literally named `"reference"`,
start with `"Patient/"`, and are keys of the mapping, replacing such a value
`v` by `mapping[v]`; every other value is unchanged. -/

mutual

def mapRewriteSpecJ (m : List (String × String)) : JSON → JSON
  | .obj o => .obj (mapRewriteSpecO m o)
  | .arr a => .arr (mapRewriteSpecA m a)
  | j => j

def mapRewriteSpecO (m : List (String × String)) : JObj → JObj
  | .nil => .nil
  | .cons k (.str s) rest =>
      .cons k (.str (if k = "reference" && pyStartsWith s "Patient/" then
          match pyLookup m s with
          | some w => w
          | none => s
        else s)) (mapRewriteSpecO m rest)
  | .cons k v rest => .cons k (mapRewriteSpecJ m v) (mapRewriteSpecO m rest)

def mapRewriteSpecA (m : List (String × String)) : JArr → JArr
  | .nil => .nil
  | .cons x rest => .cons (mapRewriteSpecJ m x) (mapRewriteSpecA m rest)

end

/-! ### Concrete fixtures used by the scenario claims -/

/-- C1 fixture: Patient `P1`. -/
def resP1 : JSON := jobj [("resourceType", .str "Patient"), ("id", .str "P1")]

/-- C1 fixture: Encounter `E1` referencing `Patient/P1`. -/
def resE1 : JSON := jobj [("resourceType", .str "Encounter"), ("id", .str "E1"),
  ("subject", jobj [("reference", .str "Patient/P1")])]

/-- C1 fixture: Observation `O1` referencing `Patient/P1` and `Encounter/E1`. -/
def resO1 : JSON := jobj [("resourceType", .str "Observation"), ("id", .str "O1"),
  ("subject", jobj [("reference", .str "Patient/P1")]),
  ("encounter", jobj [("reference", .str "Encounter/E1")])]

/-- C1 fixture: the three-resource index. -/
def idxC1 : List (RKey × JSON) :=
  [(("Patient", "P1"), resP1), (("Encounter", "E1"), resE1), (("Observation", "O1"), resO1)]

/-- A library Patient with id `X`. -/
def resPX : JSON := jobj [("resourceType", .str "Patient"), ("id", .str "X")]

/-- A composition template with one section whose single entry references
`Patient/X`. -/
def tmplPX : JSON := jobj [("resourceType", .str "Composition"), ("id", .str "T"),
  ("section", jarr [jobj [("title", .str "S"),
    ("entry", jarr [jobj [("reference", .str "Patient/X")]])]])]

/-- The bundle built from the `Patient/X` library and template (all random
draws fixed; `randomize_values=False`; ample fuel). -/
def bundlePX : JSON := build_composition_and_bundle [(("Patient", "X"), resPX)] (some tmplPX)
  "P0" "male" 1980 "U0" "T1" "T2" "T3" (jGetList tmplPX "section") id "FE" "FO" false [] 10

/-- A composition template whose single section has an empty entry list. -/
def tmplEmptySec : JSON := jobj [("resourceType", .str "Composition"), ("id", .str "T"),
  ("section", jarr [jobj [("title", .str "S"), ("entry", jarr [])]])]

/-- The bundle built from that template over a non-empty index. -/
def bundleEmptySec : JSON := build_composition_and_bundle [(("Patient", "X"), resPX)]
  (some tmplEmptySec) "P0" "male" 1980 "U0" "T1" "T2" "T3"
  (jGetList tmplEmptySec "section") id "FE" "FO" false [] 10

/-- A template with two sections whose entries reference the same
`Observation/X`. -/
def tmplTwoSecs : JSON := jobj [("resourceType", .str "Composition"), ("id", .str "T"),
  ("section", jarr [
    jobj [("title", .str "A"), ("entry", jarr [jobj [("reference", .str "Observation/X")]])],
    jobj [("title", .str "B"), ("entry", jarr [jobj [("reference", .str "Observation/X")]])]])]

/-- The single-entry bundle whose Composition subject points at the given
reference while no entry carries that full identifier. -/
def subjBundle (s : String) : JSON :=
  jobj [("entry", jarr [jobj [("fullUrl", .str "Composition/c"),
    ("resource", jobj [("resourceType", .str "Composition"), ("id", .str "c"),
      ("subject", jobj [("reference", .str s)])])]])]

/-! ## Helper lemmas -/

theorem JArr.toList_ofList : ∀ l : List JSON, (JArr.ofList l).toList = l
  | [] => rfl
  | x :: xs => by simp [JArr.ofList, JArr.toList, JArr.toList_ofList xs]

mutual

theorem normPat_idem (r : String) : ∀ j,
    normalize_patient_refs_in_resource r (normalize_patient_refs_in_resource r j) =
      normalize_patient_refs_in_resource r j
  | .null => rfl
  | .bool _ => rfl
  | .num _ => rfl
  | .str _ => rfl
  | .arr a => by simp [normalize_patient_refs_in_resource, normPatA_idem r a]
  | .obj o => by simp [normalize_patient_refs_in_resource, normPatO_idem r o]

theorem normPatO_idem (r : String) : ∀ o, normPatO r (normPatO r o) = normPatO r o
  | .nil => rfl
  | .cons k (.str s) rest => by
      by_cases h : pyStartsWith s "Patient/" = true
      · by_cases h2 : pyStartsWith r "Patient/" = true
        · simp [normPatO, h, h2, normPatO_idem r rest]
        · simp [normPatO, h, h2, normPatO_idem r rest]
      · simp [normPatO, h, normPatO_idem r rest]
  | .cons k .null rest => by simp [normPatO, normPatO_idem r rest, normPat_idem r]
  | .cons k (.bool b) rest => by simp [normPatO, normPatO_idem r rest, normPat_idem r]
  | .cons k (.num n) rest => by simp [normPatO, normPatO_idem r rest, normPat_idem r]
  | .cons k (.arr a) rest => by
      simp only [normPatO, normalize_patient_refs_in_resource, normPatO_idem r rest]
      simp [normPatA_idem r a]
  | .cons k (.obj o) rest => by
      simp only [normPatO, normalize_patient_refs_in_resource, normPatO_idem r rest]
      simp [normPatO_idem r o]

theorem normPatA_idem (r : String) : ∀ a, normPatA r (normPatA r a) = normPatA r a
  | .nil => rfl
  | .cons x rest => by
      by_cases hx : ∃ s, x = JSON.str s
      · obtain ⟨s, rfl⟩ := hx
        simp [normPatA, normalize_patient_refs_in_resource, normPatA_idem r rest]
      · simp [normPatA, normPat_idem r x, normPatA_idem r rest]

end

theorem findRefsA_append : ∀ a b : JArr,
    findRefsA (JArr.append a b) = findRefsA a ++ findRefsA b
  | .nil, b => by simp [JArr.append, findRefsA]
  | .cons x rest, b => by
      simp [JArr.append, findRefsA, findRefsA_append rest b]

/-- The mapping pass agrees with the spec-side rewrite on every value:
`nprbValue` with a mapping and no canonical is exactly the mapping lookup
with default. -/
theorem nprbValue_some_none (m : List (String × String)) (s : String) :
    nprbValue (some m) none s = (match pyLookup m s with | some w => w | none => s) := by
  cases m with
  | nil => simp [nprbValue, pyLookup]
  | cons p rest => simp [nprbValue]

mutual

theorem nprbJ_eq_spec (m : List (String × String)) : ∀ j,
    nprbJ (some m) none j = mapRewriteSpecJ m j
  | .null => rfl
  | .bool _ => rfl
  | .num _ => rfl
  | .str _ => rfl
  | .arr a => by simp [nprbJ, mapRewriteSpecJ, nprbA_eq_spec m a]
  | .obj o => by simp [nprbJ, mapRewriteSpecJ, nprbO_eq_spec m o]

theorem nprbO_eq_spec (m : List (String × String)) : ∀ o,
    nprbO (some m) none o = mapRewriteSpecO m o
  | .nil => rfl
  | .cons k (.str s) rest => by
      by_cases h : (k = "reference" && pyStartsWith s "Patient/") = true
      · simp [nprbO, mapRewriteSpecO, h, nprbValue_some_none, nprbO_eq_spec m rest]
      · simp [nprbO, mapRewriteSpecO, h, nprbO_eq_spec m rest]
  | .cons k .null rest => by simp [nprbO, mapRewriteSpecO, nprbO_eq_spec m rest, nprbJ_eq_spec m]
  | .cons k (.bool b) rest => by simp [nprbO, mapRewriteSpecO, nprbO_eq_spec m rest, nprbJ_eq_spec m]
  | .cons k (.num n) rest => by simp [nprbO, mapRewriteSpecO, nprbO_eq_spec m rest, nprbJ_eq_spec m]
  | .cons k (.arr a) rest => by
      simp only [nprbO, mapRewriteSpecO, nprbJ, mapRewriteSpecJ, nprbO_eq_spec m rest]
      simp [nprbA_eq_spec m a]
  | .cons k (.obj o) rest => by
      simp only [nprbO, mapRewriteSpecO, nprbJ, mapRewriteSpecJ, nprbO_eq_spec m rest]
      simp [nprbO_eq_spec m o]

theorem nprbA_eq_spec (m : List (String × String)) : ∀ a,
    nprbA (some m) none a = mapRewriteSpecA m a
  | .nil => rfl
  | .cons x rest => by
      by_cases hx : ∃ s, x = JSON.str s
      · obtain ⟨s, rfl⟩ := hx
        simp [nprbA, mapRewriteSpecA, nprbJ, mapRewriteSpecJ, nprbA_eq_spec m rest]
      · simp [nprbA, mapRewriteSpecA, nprbJ_eq_spec m x, nprbA_eq_spec m rest]

end

theorem isPrefixOf_append_self : ∀ l t : List Char, l.isPrefixOf (l ++ t) = true
  | [], _ => by simp [List.isPrefixOf]
  | c :: cs, t => by simp [List.isPrefixOf, isPrefixOf_append_self cs t]

theorem pyStartsWith_append (p x : String) : pyStartsWith (p ++ x) p = true := by
  unfold pyStartsWith
  rw [String.data_append]
  exact isPrefixOf_append_self _ _

/-- Count of error-severity issues in a validator result. -/
def errorCount (r : Except String (List Issue)) : Nat :=
  match r with
  | .ok l => (l.filter (fun i => i.severity = "error")).length
  | .error _ => 0

/-! ## Claim theorems -/

/-- C1: seeding the Closure Builder with `O1`'s key over the index
`{P1, E1, O1}` (visited set holding only the Composition's full identifier)
yields exactly the three non-Composition entries `O1`, `P1`, `E1`, each
exactly once, although `P1` is reachable both directly and through `E1`. -/
theorem C1_closure_scenario :
    (include_resource_and_children 10 idxC1 ("Observation", "O1")
        ⟨[], ["Composition/c0"]⟩ none).entries.map Prod.fst =
      ["Observation/O1", "Patient/P1", "Encounter/E1"] ∧
    ((include_resource_and_children 10 idxC1 ("Observation", "O1")
        ⟨[], ["Composition/c0"]⟩ none).entries.map Prod.fst).Nodup ∧
    (include_resource_and_children 10 idxC1 ("Observation", "O1")
        ⟨[], ["Composition/c0"]⟩ none).entries.map (fun p => jGet p.2 "resourceType") =
      [some (.str "Observation"), some (.str "Patient"), some (.str "Encounter")] :=
  ⟨rfl, by decide, rfl⟩

/-- C2 (failing input): building from a library containing `Patient/X` and a
template section referencing it produces a bundle whose full identifiers are
`Composition/generated-comp-U0`, `Patient/P0`, `Patient/P0` — the final
normalization pass rewrites the `Patient/X` entry's `fullUrl` to the
synthetic reference, duplicating a full identifier. -/
theorem C2_duplicate_fullUrl :
    entry_fullUrls bundlePX =
      [some "Composition/generated-comp-U0", some "Patient/P0", some "Patient/P0"] ∧
    ¬ (entry_fullUrls bundlePX).Nodup :=
  ⟨rfl, by decide⟩

/-- C3: the Identity Normalizer is idempotent — applying
`_normalize_patient_refs_in_resource` twice with the same canonical
reference equals applying it once, for every JSON graph and reference. -/
theorem C3_normalize_idempotent (x : JSON) (R : String) :
    normalize_patient_refs_in_resource R (normalize_patient_refs_in_resource R x) =
      normalize_patient_refs_in_resource R x :=
  normPat_idem R x

/-- C8 (counterexample): a `"reference"` value `Encounter/E1` that is a key
of the mapping is left unchanged by the mapping pass (the code additionally
requires the value to start with `Patient/`), although the mapping maps it
to the distinct value `Encounter/Z` — refuting the claim that every mapped
`"reference"` value is rewritten. -/
theorem C8_counterexample :
    normalize_patient_refs_in_bundle (jobj [("reference", .str "Encounter/E1")])
        (some [("Encounter/E1", "Encounter/Z")]) none =
      jobj [("reference", .str "Encounter/E1")] ∧
    pyLookup [("Encounter/E1", "Encounter/Z")] "Encounter/E1" = some "Encounter/Z" ∧
    "Encounter/E1" ≠ "Encounter/Z" :=
  ⟨rfl, rfl, by decide⟩

/-- C8 (amended): for every bundle and mapping table, the mapping pass
rewrites precisely those string values under an attribute literally named
`"reference"` that start with `"Patient/"` and are keys of the mapping,
replacing each by its image; every other value is unchanged. -/
theorem C8_mapping_rewrite (b : JSON) (m : List (String × String)) :
    normalize_patient_refs_in_bundle b (some m) none = mapRewriteSpecJ m b := by
  simp [normalize_patient_refs_in_bundle, nprbJ_eq_spec]

/-- C9: a reference-shaped string that is a direct element of a list is
invisible to `find_reference_strings` (removing or inserting it anywhere in
a list leaves the scan unchanged), while the same string as the value of an
object attribute is reported. -/
theorem C9_list_strings_ignored :
    (∀ (pre post : JArr) (s : String),
      find_reference_strings (.arr (JArr.append pre (.cons (.str s) post))) =
        find_reference_strings (.arr (JArr.append pre post))) ∧
    find_reference_strings (jobj [("note", .str "Patient/P1")]) = [("Patient", "P1")] := by
  constructor
  · intro pre post s
    simp [find_reference_strings, findRefsJ, findRefsA_append, findRefsA]
  · rfl

/-- C4 (counterexample): with a template whose two sections each reference
`Observation/X`, the section pass returns two sections whose entries carry
the same resource key — the key sets of distinct sections are not disjoint,
and the key added by the first section was already claimed when the second
drew it. -/
theorem C4_same_key_two_sections :
    ((build_sections (some tmplTwoSecs) (jGetList tmplTwoSecs "section") id "FE" "FO").1.map
        (fun sec => (jGetList sec "entry").map (fun e => jGet e "reference"))) =
      [[some (.str "Observation/X")], [some (.str "Observation/X")]] ∧
    (build_sections (some tmplTwoSecs) (jGetList tmplTwoSecs "section") id "FE" "FO").2 =
      [("Observation", "X")] :=
  ⟨rfl, rfl⟩

/-- C5 (counterexample): over a non-empty index, a template whose only
section has no entries yields a Composition with an empty section list — the
fallback does not fire on pool exhaustion, only when no usable template
exists. -/
theorem C5_empty_sections :
    jGetList (returned_composition bundleEmptySec) "section" = [] ∧
    ([(("Patient", "X"), resPX)] : List (RKey × JSON)) ≠ [] :=
  ⟨rfl, by simp⟩

/-- C6 (counterexample): on the single-entry bundle whose Composition
subject is `Patient/X` with no such entry, the validator reports two
error-severity issues (subject resolution and the patient-reference walk),
not exactly one. -/
theorem C6_counterexample :
    structural_validate_bundle (subjBundle "Patient/X") = Except.ok
      [⟨"error", "Composition.subject Patient/X not present as resource in bundle"⟩,
       ⟨"error", "Patient reference Patient/X in resource Composition/c not present in bundle"⟩] ∧
    errorCount (structural_validate_bundle (subjBundle "Patient/X")) ≠ 1 :=
  ⟨rfl, by decide⟩

/-- C7 (counterexample): the validator is not total on arbitrary values — a
bundle whose entry list holds a bare string raises `AttributeError` in
Python (`.get` on a `str`), modelled as an exceptional result. -/
theorem C7_counterexample :
    structural_validate_bundle (jobj [("entry", jarr [.str "x"])]) =
      Except.error "AttributeError: object has no attribute get" :=
  rfl

/-- C6 (amended): on the single-entry bundle whose Composition subject is an
absent `Patient/`-prefixed reference, the validator returns exactly two
error-severity issues — the subject-resolution check and the per-resource
patient-reference walk — each naming the reference. -/
theorem C6_amended (s : String) (h1 : s ≠ "") (h2 : pyStartsWith s "Patient/" = true)
    (h3 : s ≠ "Composition/c") :
    structural_validate_bundle (subjBundle s) = Except.ok
      [⟨"error", "Composition.subject " ++ s ++ " not present as resource in bundle"⟩,
       ⟨"error", "Patient reference " ++ s ++ " in resource Composition/c not present in bundle"⟩] := by
  have h4 : (s == "Composition/c") = false := beq_eq_false_iff_ne.mpr h3
  have h5 : pyMem [JSON.str "Composition/c"] (JSON.str s) = false := by
    simp [pyMem, pyEqHash, h3]
  simp [structural_validate_bundle, subjBundle, iterSeq, jobj, jarr, JObj.ofList, JArr.ofList,
    JArr.toList, JObj.get, jGet, jGetList, Except.bind, validateEntryPresent, findComp,
    getSubj, subjIssues, sectionIssues, refIssue, patientIssues, pvJ, pvO, pvA,
    pyTruthy, jstr, List.foldlM, List.contains, List.elem, h1, h2, h3, bind, pure,
    Except.pure, List.mem_singleton, String.append_assoc, h4, h5]

/-- Witness for C6 (amended) at the concrete reference `Patient/X`. -/
theorem C6_amended_witness :
    structural_validate_bundle (subjBundle "Patient/X") = Except.ok
      [⟨"error", "Composition.subject " ++ "Patient/X" ++ " not present as resource in bundle"⟩,
       ⟨"error", "Patient reference " ++ "Patient/X" ++ " in resource Composition/c not present in bundle"⟩] :=
  C6_amended "Patient/X" (by decide) (by decide) (by decide)

/-- An entry produced by the section pass carries a parsed reference whose
key is recorded in the given key list. -/
def entryHasRecordedKey (keys : List RKey) (e : JSON) : Prop :=
  ∃ ty i, jGet e "reference" = some (.str (ty ++ "/" ++ i)) ∧ (ty, i) ∈ keys

theorem entryHasRecordedKey_mono {keys keys' : List RKey} {e : JSON}
    (hsub : ∀ k ∈ keys, k ∈ keys') (h : entryHasRecordedKey keys e) :
    entryHasRecordedKey keys' e := by
  obtain ⟨ty, i, h1, h2⟩ := h
  exact ⟨ty, i, h1, hsub _ h2⟩

theorem section_entry_step_cases (ea : List JSON × List RKey) (e : JSON) :
    section_entry_step ea e = ea ∨
    ∃ rtype rid, section_entry_step ea e =
      (ea.1 ++ [jobj [("reference", .str (rtype ++ "/" ++ rid))]],
       if ea.2.contains (rtype, rid) then ea.2 else ea.2 ++ [(rtype, rid)]) := by
  unfold section_entry_step
  repeat' split
  all_goals try exact Or.inl rfl
  all_goals rename_i rtype rid heq hc
  all_goals exact Or.inr ⟨rtype, rid, by simp at hc; simp [hc]⟩

theorem section_entry_step_keys_mono (ea : List JSON × List RKey) (e : JSON) :
    ∀ k ∈ ea.2, k ∈ (section_entry_step ea e).2 := by
  intro k hk
  rcases section_entry_step_cases ea e with h | ⟨rtype, rid, h⟩
  · rw [h]; exact hk
  · rw [h]
    by_cases hm : (rtype, rid) ∈ ea.2
    · simpa [hm] using hk
    · simp [hm, hk]

theorem section_entry_step_inv (ea : List JSON × List RKey) (e : JSON)
    (h : ∀ x ∈ ea.1, entryHasRecordedKey ea.2 x) :
    ∀ x ∈ (section_entry_step ea e).1, entryHasRecordedKey (section_entry_step ea e).2 x := by
  have hmono := section_entry_step_keys_mono ea e
  intro x hx
  rcases section_entry_step_cases ea e with heq | ⟨rtype, rid, heq⟩
  · rw [heq] at hx ⊢
    exact h _ hx
  · rw [heq] at hx ⊢
    simp only [List.mem_append, List.mem_singleton] at hx
    rcases hx with hx | rfl
    · refine entryHasRecordedKey_mono ?_ (h _ hx)
      intro k hk
      have := hmono k hk
      rwa [heq] at this
    · refine ⟨rtype, rid, by simp [jGet, jobj, JObj.ofList, JObj.get], ?_⟩
      by_cases hm : (rtype, rid) ∈ ea.2
      · simp [hm]
      · simp [hm]

theorem foldl_entry_step_keys_mono (es : List JSON) : ∀ (ea : List JSON × List RKey),
    ∀ k ∈ ea.2, k ∈ (es.foldl section_entry_step ea).2 := by
  induction es with
  | nil => intro ea k hk; exact hk
  | cons e rest ih =>
      intro ea k hk
      exact ih _ _ (section_entry_step_keys_mono ea e k hk)

theorem foldl_entry_step_inv (es : List JSON) : ∀ (ea : List JSON × List RKey),
    (∀ x ∈ ea.1, entryHasRecordedKey ea.2 x) →
    ∀ x ∈ (es.foldl section_entry_step ea).1,
      entryHasRecordedKey (es.foldl section_entry_step ea).2 x := by
  induction es with
  | nil => intro ea h; exact h
  | cons e rest ih =>
      intro ea h
      exact ih _ (section_entry_step_inv ea e h)

theorem jGetList_title_entry (tv : JSON) (l : List JSON) :
    jGetList (jobj [("title", tv), ("entry", jarr l)]) "entry" = l := by
  simp [jGetList, jGet, jobj, JObj.ofList, JObj.get, jarr, JArr.toList_ofList]

theorem build_section_step_keys_mono (se : List JSON → List JSON)
    (acc : List JSON × List RKey) (sec : JSON) :
    ∀ k ∈ acc.2, k ∈ (build_section_step se acc sec).2 := by
  intro k hk
  have h := foldl_entry_step_keys_mono (se (jGetList sec "entry")) ([], acc.2) k hk
  simp only [build_section_step]
  split
  · exact h
  · exact h

theorem build_section_step_inv (se : List JSON → List JSON)
    (acc : List JSON × List RKey) (sec : JSON)
    (h : ∀ s ∈ acc.1, ∀ e ∈ jGetList s "entry", entryHasRecordedKey acc.2 e) :
    ∀ s ∈ (build_section_step se acc sec).1, ∀ e ∈ jGetList s "entry",
      entryHasRecordedKey (build_section_step se acc sec).2 e := by
  have hkeys := foldl_entry_step_keys_mono (se (jGetList sec "entry")) ([], acc.2)
  have hentries := foldl_entry_step_inv (se (jGetList sec "entry")) ([], acc.2) (by simp)
  intro s hs e he
  revert hs
  simp only [build_section_step]
  split
  · intro hs
    simp only [List.mem_append, List.mem_singleton] at hs
    rcases hs with hs | rfl
    · exact entryHasRecordedKey_mono hkeys (h _ hs _ he)
    · rw [jGetList_title_entry] at he
      exact hentries _ he
  · intro hs
    exact entryHasRecordedKey_mono hkeys (h _ hs _ he)

theorem foldl_section_step_keys_mono (se : List JSON → List JSON) (secs : List JSON) :
    ∀ (acc : List JSON × List RKey), ∀ k ∈ acc.2,
      k ∈ (secs.foldl (build_section_step se) acc).2 := by
  induction secs with
  | nil => intro acc k hk; exact hk
  | cons sec rest ih =>
      intro acc k hk
      exact ih _ _ (build_section_step_keys_mono se acc sec k hk)

theorem foldl_section_step_inv (se : List JSON → List JSON) (secs : List JSON) :
    ∀ (acc : List JSON × List RKey),
      (∀ s ∈ acc.1, ∀ e ∈ jGetList s "entry", entryHasRecordedKey acc.2 e) →
      ∀ s ∈ (secs.foldl (build_section_step se) acc).1,
        ∀ e ∈ jGetList s "entry",
          entryHasRecordedKey (secs.foldl (build_section_step se) acc).2 e := by
  induction secs with
  | nil => intro acc h; exact h
  | cons sec rest ih =>
      intro acc h
      exact ih _ (build_section_step_inv se acc sec h)

/-- C4 (amended): the section pass performs no exclusion against previously
claimed keys — the same key may appear in entries of two sections — but every
resource key referenced by any returned section entry is recorded in the
returned `selected_keys` set, so the closure later includes it. -/
theorem C4_keys_recorded (t : JSON) (ss : List JSON) (se : List JSON → List JSON)
    (f1 f2 : String)
    (hguard : (pyTruthy t && (match t with | .obj o => o.hasKey "section" | _ => false)) = true) :
    ∀ sec ∈ (build_sections (some t) ss se f1 f2).1,
      ∀ e ∈ jGetList sec "entry",
        ∃ ty i, jGet e "reference" = some (.str (ty ++ "/" ++ i)) ∧
          (ty, i) ∈ (build_sections (some t) ss se f1 f2).2 := by
  have hmain := foldl_section_step_inv se ss ([], []) (by simp)
  simp only [build_sections, hguard, if_true]
  exact hmain

/-- Witness for C4 (amended) at the two-section template. -/
theorem C4_keys_recorded_witness :
    ∃ ty i,
      jGet (jobj [("reference", .str "Observation/X")]) "reference" =
        some (.str (ty ++ "/" ++ i)) ∧
      (ty, i) ∈ (build_sections (some tmplTwoSecs) (jGetList tmplTwoSecs "section")
        id "FE" "FO").2 := by
  have h := C4_keys_recorded tmplTwoSecs (jGetList tmplTwoSecs "section") id "FE" "FO"
    (by decide)
  have e1 : (build_sections (some tmplTwoSecs) (jGetList tmplTwoSecs "section")
      id "FE" "FO").1 =
    [jobj [("title", .str "A"), ("entry", jarr [jobj [("reference", .str "Observation/X")]])],
     jobj [("title", .str "B"), ("entry", jarr [jobj [("reference", .str "Observation/X")]])]] := rfl
  refine h (jobj [("title", .str "A"),
      ("entry", jarr [jobj [("reference", .str "Observation/X")]])]) ?_
    (jobj [("reference", .str "Observation/X")]) ?_
  · rw [e1]; simp
  · rw [jGetList_title_entry]; simp

/-- C5 (amended): the fallback fires exactly when no usable template exists
(none chosen, or the chosen one is falsy or lacks a `"section"` key), and
then emits two fixed sections — `Synthetic Episode` and
`Synthetic Observations` — each holding one freshly generated reference not
drawn from the index, with no key recorded in `selected_keys`. -/
theorem C5_fallback (ct : Option JSON) (ss : List JSON) (se : List JSON → List JSON)
    (f1 f2 : String)
    (h : ct = none ∨ ∃ t, ct = some t ∧
      (pyTruthy t && (match t with | .obj o => o.hasKey "section" | _ => false)) = false) :
    build_sections ct ss se f1 f2 =
      ([jobj [("title", .str "Synthetic Episode"),
              ("entry", jarr [jobj [("reference", .str ("Encounter/" ++ f1))]])],
        jobj [("title", .str "Synthetic Observations"),
              ("entry", jarr [jobj [("reference", .str ("Observation/" ++ f2))]])]], []) := by
  rcases h with rfl | ⟨t, rfl, ht⟩
  · rfl
  · simp [build_sections, ht]

/-- Witness for C5 (amended) with no template chosen. -/
theorem C5_fallback_witness :
    build_sections none [] id "FE" "FO" =
      ([jobj [("title", .str "Synthetic Episode"),
              ("entry", jarr [jobj [("reference", .str ("Encounter/" ++ "FE"))]])],
        jobj [("title", .str "Synthetic Observations"),
              ("entry", jarr [jobj [("reference", .str ("Observation/" ++ "FO"))]])]], []) :=
  C5_fallback none [] id "FE" "FO" (Or.inl rfl)

theorem validateEntryPresent_ok (acc : List Issue × List JSON) (e : JSON)
    (he : wellShapedEntry e = true) :
    ∃ acc', validateEntryPresent acc e = Except.ok acc' := by
  cases e
  case obj eo =>
    simp only [wellShapedEntry] at he
    rw [Bool.and_eq_true] at he
    obtain ⟨hfu, hrs⟩ := he
    rcases hres : eo.get "resource" with _ | v
    · simp only [validateEntryPresent]
      rw [hres]
      simp only [Option.getD_none]
      repeat' split
      all_goals first | exact ⟨_, rfl⟩ | simp_all [pyTruthy]
    · rcases v with _ | b | n | s | a | ro
      case obj =>
        simp only [validateEntryPresent]
        rw [hres]
        simp only [Option.getD_some]
        repeat' split
        all_goals first | exact ⟨_, rfl⟩ | simp_all [pyTruthy]
      all_goals (rw [hres] at hrs; simp at hrs)
  all_goals simp [wellShapedEntry] at he

theorem foldlM_vep_ok (es : List JSON) : ∀ (acc : List Issue × List JSON),
    (∀ e ∈ es, wellShapedEntry e = true) →
    ∃ out, es.foldlM validateEntryPresent acc = Except.ok out := by
  induction es with
  | nil => intro acc _; exact ⟨acc, rfl⟩
  | cons e rest ih =>
      intro acc h
      obtain ⟨acc', h1⟩ := validateEntryPresent_ok acc e (h e (by simp))
      obtain ⟨out, h2⟩ := ih acc' (fun x hx => h x (by simp [hx]))
      exact ⟨out, by simp [List.foldlM, h1, Except.bind, bind, h2]⟩

theorem findComp_mem (es : List JSON) (h : ∀ e ∈ es, wellShapedEntry e = true) :
    ∃ c, findComp es = Except.ok c ∧
      ∀ ro, c = some ro → ∃ eo, JSON.obj eo ∈ es ∧ eo.get "resource" = some (.obj ro) := by
  induction es with
  | nil => exact ⟨none, rfl, by simp⟩
  | cons e rest ih =>
      have he := h e (by simp)
      obtain ⟨c, hc, hmem⟩ := ih (fun x hx => h x (by simp [hx]))
      cases e
      case obj eo =>
        rcases hres : eo.get "resource" with _ | v
        · exact ⟨c, by simp [findComp, hres, hc], fun ro hro =>
            (hmem ro hro).imp (fun eo' ⟨h1, h2⟩ => ⟨by simp [h1], h2⟩)⟩
        · rcases v with _ | b | n | s | a | ro'
          case obj =>
            rcases hrt : ro'.get "resourceType" with _ | tv
            · exact ⟨c, by simp [findComp, hres, hrt, hc], fun ro hro =>
                (hmem ro hro).imp (fun eo' ⟨h1, h2⟩ => ⟨by simp [h1], h2⟩)⟩
            · rcases tv with _ | b2 | n2 | t | a2 | o2
              case str =>
                by_cases ht : t = "Composition"
                · subst ht
                  refine ⟨some ro', by simp [findComp, hres, hrt], ?_⟩
                  intro ro hro
                  cases hro
                  exact ⟨eo, by simp, hres⟩
                · refine ⟨c, by simp [findComp, hres, hrt, ht, hc], fun ro hro =>
                    (hmem ro hro).imp (fun eo' ⟨h1, h2⟩ => ⟨by simp [h1], h2⟩)⟩
              all_goals exact ⟨c, by simp [findComp, hres, hrt, hc], fun ro hro =>
                (hmem ro hro).imp (fun eo' ⟨h1, h2⟩ => ⟨by simp [h1], h2⟩)⟩
          all_goals simp [wellShapedEntry, hres] at he
      all_goals simp [wellShapedEntry] at he

theorem wellShapedRef_cases (o : JObj) (h : wellShapedRef o = true) :
    o.get "reference" = none ∨ ∃ t, o.get "reference" = some (JSON.str t) := by
  unfold wellShapedRef at h
  rcases hr : o.get "reference" with _ | w
  · exact Or.inl rfl
  · rw [hr] at h
    rcases w with _ | b | n | t | a | o2
    case str => exact Or.inr ⟨_, rfl⟩
    all_goals simp at h

theorem getSubj_ok (ro : JObj)
    (h : (match ro.get "subject" with
          | none => true
          | some (.obj so) => wellShapedRef so
          | some _ => false) = true) :
    ∃ s, getSubj ro = Except.ok s ∧
      (s = none ∨ ∃ t, s = some (JSON.str t)) := by
  unfold getSubj
  rcases hs : ro.get "subject" with _ | v
  · exact ⟨none, rfl, Or.inl rfl⟩
  · rcases v with _ | b | n | s | a | so
    case obj =>
      refine ⟨so.get "reference", rfl, ?_⟩
      rw [hs] at h
      simp only [] at h
      exact wellShapedRef_cases so (by simpa using h)
    all_goals simp [hs] at h

theorem subjIssues_ok (present : List JSON) (subj : Option JSON)
    (h : subj = none ∨ ∃ t, subj = some (JSON.str t)) :
    ∃ l, subjIssues present subj = Except.ok l := by
  rcases h with rfl | ⟨t, rfl⟩
  · exact ⟨_, rfl⟩
  · simp only [subjIssues]
    repeat' split
    all_goals exact ⟨_, rfl⟩

theorem refIssue_ok (present : List JSON) (r : Option JSON)
    (h : r = none ∨ ∃ t, r = some (JSON.str t)) :
    ∃ l, refIssue present r = Except.ok l := by
  rcases h with rfl | ⟨t, rfl⟩
  · exact ⟨_, rfl⟩
  · simp only [refIssue]
    repeat' split
    all_goals exact ⟨_, rfl⟩

theorem foldlM_except_ok {α σ : Type} (f : σ → α → Except String σ) (l : List α)
    (hf : ∀ (s : σ) (a : α), a ∈ l → ∃ s', f s a = Except.ok s') :
    ∀ s, ∃ out, l.foldlM f s = Except.ok out := by
  induction l with
  | nil => intro s; exact ⟨s, rfl⟩
  | cons a rest ih =>
      intro s
      obtain ⟨s', hs'⟩ := hf s a (by simp)
      obtain ⟨out, hout⟩ := ih (fun s a ha => hf s a (by simp [ha])) s'
      exact ⟨out, by simp [List.foldlM, hs', hout, Except.bind, bind]⟩

theorem sectionIssues_ok (present : List JSON) (ro : JObj)
    (h : (match ro.get "section" with
          | none => true
          | some (.arr secs) => secs.toList.all wellShapedSection
          | some _ => false) = true) :
    ∃ l, sectionIssues present ro = Except.ok l := by
  unfold sectionIssues
  rcases hs : ro.get "section" with _ | v
  · exact ⟨[], by simp [iterSeq, jarr, JArr.ofList, JArr.toList, Except.bind, bind, pure,
      Except.pure, List.foldlM]⟩
  · rcases v with _ | b | n | s | a | so
    case arr =>
      have h2 : ∀ sec ∈ a.toList, wellShapedSection sec = true := by
        rw [hs] at h
        simpa [List.all_eq_true] using h
      have hstep : ∀ (acc : List Issue) (sec : JSON), sec ∈ a.toList →
          ∃ out, (fun (acc : List Issue) (sec : JSON) =>
            match sec with
            | JSON.obj so => do
                let es ← iterSeq ((so.get "entry").getD (jarr []))
                es.foldlM (fun acc2 e =>
                  match e with
                  | .obj eo => do
                      let is ← refIssue present (eo.get "reference")
                      Except.ok (acc2 ++ is)
                  | _ => Except.error "AttributeError: object has no attribute get") acc
            | _ => Except.error "AttributeError: object has no attribute get") acc sec =
            Except.ok out := by
        intro acc sec hsec
        have hws := h2 sec hsec
        cases sec
        case obj so =>
          simp only [wellShapedSection] at hws
          have hentry : ∃ es0, iterSeq ((so.get "entry").getD (jarr [])) = Except.ok es0 ∧
              ∀ e ∈ es0, (match e with
                | JSON.obj eo => wellShapedRef eo
                | _ => false) = true := by
            rcases hse : so.get "entry" with _ | w
            · exact ⟨[], by simp [iterSeq, jarr, JArr.ofList, JArr.toList], by simp⟩
            · rcases w with _ | b2 | n2 | s2 | a2 | o2
              case arr =>
                refine ⟨a2.toList, by simp [iterSeq], ?_⟩
                rw [hse] at hws
                simpa [List.all_eq_true] using hws
              all_goals simp [hse] at hws
          obtain ⟨es0, hes0, hshape⟩ := hentry
          have hinner : ∀ (s2 : List Issue) (e : JSON), e ∈ es0 →
              ∃ s', (fun (acc2 : List Issue) (e : JSON) =>
                match e with
                | JSON.obj eo => do
                    let is ← refIssue present (eo.get "reference")
                    Except.ok (acc2 ++ is)
                | _ => Except.error "AttributeError: object has no attribute get") s2 e =
                Except.ok s' := by
            intro s2 e he
            have hwr := hshape e he
            cases e
            case obj eo =>
              simp only [] at hwr
              obtain ⟨is, his⟩ := refIssue_ok present (eo.get "reference")
                (wellShapedRef_cases eo (by simpa using hwr))
              exact ⟨s2 ++ is, by simp [his, Except.bind, bind]⟩
            all_goals simp at hwr
          obtain ⟨out, hout⟩ := foldlM_except_ok _ es0 hinner acc
          refine ⟨out, ?_⟩
          show (do
              let es ← iterSeq ((so.get "entry").getD (jarr []))
              es.foldlM (fun acc2 e =>
                match e with
                | JSON.obj eo => do
                    let is ← refIssue present (eo.get "reference")
                    Except.ok (acc2 ++ is)
                | _ => Except.error "AttributeError: object has no attribute get") acc) =
            Except.ok out
          rw [hes0]
          exact hout
        all_goals simp [wellShapedSection] at hws
      obtain ⟨out, hout⟩ := foldlM_except_ok _ a.toList hstep []
      refine ⟨out, ?_⟩
      have hi : iterSeq ((some (JSON.arr a)).getD (jarr [])) = Except.ok a.toList := rfl
      rw [hi]
      exact hout
    all_goals simp [hs] at h

/-- C7 (amended): the validator is read-only by construction and returns an
accumulated issue list — never an exception — on every well-shaped bundle
(an object whose entry list holds objects with string-or-absent full
identifiers and object resources whose subject is an object or absent and
whose sections are objects with string-or-absent entry references), the
shape of every generator-produced bundle; on malformed values it raises, as
the counterexample shows. -/
theorem C7_total_on_wellshaped (b : JSON) (hb : wellShapedBundle b = true) :
    ∃ issues, structural_validate_bundle b = Except.ok issues := by
  cases b
  case obj bo =>
    have hent : ∃ es, iterSeq ((bo.get "entry").getD (jarr [])) = Except.ok es ∧
        ∀ e ∈ es, wellShapedEntry e = true := by
      rcases he : bo.get "entry" with _ | v
      · exact ⟨[], by simp [iterSeq, jarr, JArr.ofList, JArr.toList], by simp⟩
      · rcases v with _ | b2 | n2 | s2 | a2 | o2
        case arr =>
          refine ⟨a2.toList, by simp [iterSeq], ?_⟩
          simp only [wellShapedBundle] at hb
          rw [he] at hb
          simpa [List.all_eq_true] using hb
        all_goals
          simp only [wellShapedBundle] at hb
          rw [he] at hb
          simp at hb
    obtain ⟨es, hes, hesall⟩ := hent
    obtain ⟨acc, hacc⟩ := foldlM_vep_ok es ([], []) hesall
    obtain ⟨c, hcomp, hcmem⟩ := findComp_mem es hesall
    cases c with
    | none =>
        have hrw : structural_validate_bundle (JSON.obj bo) =
            Except.ok ((acc.1 ++ [⟨"error", "No Composition in Bundle"⟩]) ++
              patientIssues acc.2 es) := by
          simp only [structural_validate_bundle, hes, hacc, hcomp, Except.bind, bind]
        exact ⟨_, hrw⟩
    | some ro =>
        obtain ⟨eo, heo_mem, heo_res⟩ := hcmem ro rfl
        have hwse := hesall _ heo_mem
        simp only [wellShapedEntry, heo_res] at hwse
        rw [Bool.and_eq_true] at hwse
        obtain ⟨hfu, hwse2⟩ := hwse
        rw [Bool.and_eq_true] at hwse2
        obtain ⟨hsubj, hsect⟩ := hwse2
        obtain ⟨subj, hsubj_ok, hsubj_shape⟩ := getSubj_ok ro hsubj
        obtain ⟨si, hsi⟩ := subjIssues_ok acc.2 subj hsubj_shape
        obtain ⟨secIss, hsec_ok⟩ := sectionIssues_ok acc.2 ro hsect
        have hrw : structural_validate_bundle (JSON.obj bo) =
            Except.ok (((acc.1 ++ si) ++ secIss) ++
              patientIssues acc.2 es) := by
          simp only [structural_validate_bundle, hes, hacc, hcomp, hsubj_ok, hsi, hsec_ok,
            Except.bind, bind]
        exact ⟨_, hrw⟩
  all_goals simp [wellShapedBundle] at hb

/-- Witness for C7 (amended) at a concrete well-shaped bundle. -/
theorem C7_total_witness :
    wellShapedBundle (jobj [("entry", jarr [])]) = true ∧
    ∃ issues, structural_validate_bundle (jobj [("entry", jarr [])]) = Except.ok issues :=
  ⟨by decide, C7_total_on_wellshaped (jobj [("entry", jarr [])]) (by decide)⟩

theorem include_st_shape (fuel : Nat) : ∀ (idx : List (RKey × JSON)) (key : RKey)
    (st : BuildSt) (spr : Option String), ∃ t u,
    include_resource_and_children fuel idx key st spr =
      ⟨st.entries ++ t, st.fullUrls ++ u⟩ := by
  induction fuel with
  | zero =>
      intro idx key st spr
      exact ⟨[], [], by simp [include_resource_and_children]⟩
  | succ n ih =>
      intro idx key st spr
      rcases h : lookupKey idx key with _ | res
      · exact ⟨[], [], by simp [include_resource_and_children, h]⟩
      · by_cases hc : st.fullUrls.contains (fullUrlOfRes res) = true
        · exact ⟨[], [], by
            simp only [include_resource_and_children, h, hc, if_true]
            simp⟩
        · have hfold : ∀ (l : List RKey) (st' : BuildSt), ∃ t u,
              (l.foldl (fun acc ck =>
                if (lookupKey idx ck).isSome = true then
                  include_resource_and_children n idx ck acc spr
                else acc) st') = ⟨st'.entries ++ t, st'.fullUrls ++ u⟩ := by
            intro l
            induction l with
            | nil => intro st'; exact ⟨[], [], by simp⟩
            | cons ck rest ihl =>
                intro st'
                by_cases hck : (lookupKey idx ck).isSome = true
                · obtain ⟨t1, u1, h1⟩ := ih idx ck st' spr
                  obtain ⟨t2, u2, h2⟩ :=
                    ihl ⟨st'.entries ++ t1, st'.fullUrls ++ u1⟩
                  refine ⟨t1 ++ t2, u1 ++ u2, ?_⟩
                  simp only [List.foldl_cons, hck, if_true, h1, h2]
                  simp [List.append_assoc]
                · obtain ⟨t2, u2, h2⟩ := ihl st'
                  refine ⟨t2, u2, ?_⟩
                  simp only [List.foldl_cons, hck, Bool.false_eq_true, if_false, h2]
          simp only [include_resource_and_children, h]
          simp only [hc, Bool.false_eq_true, if_false]
          generalize (match spr with
            | some r => normalize_patient_refs_in_resource r res
            | none => res) = rc
          obtain ⟨t, u, hf⟩ := hfold (find_reference_strings rc)
            ⟨st.entries ++ [(fullUrlOfRes res, rc)], st.fullUrls ++ [fullUrlOfRes res]⟩
          refine ⟨(fullUrlOfRes res, rc) :: t, fullUrlOfRes res :: u, ?_⟩
          rw [hf]
          simp [List.append_assoc]

theorem include_selected_keys_shape (fuel : Nat) (idx : List (RKey × JSON)) (spr : String) :
    ∀ (keys : List RKey) (st : BuildSt), ∃ t u,
      include_selected_keys fuel idx spr keys st = ⟨st.entries ++ t, st.fullUrls ++ u⟩ := by
  intro keys
  induction keys with
  | nil => intro st; exact ⟨[], [], by simp [include_selected_keys]⟩
  | cons key rest ih =>
      intro st
      by_cases hk : (lookupKey idx key).isSome = true
      · obtain ⟨t1, u1, h1⟩ := include_st_shape fuel idx key st (some spr)
        obtain ⟨t2, u2, h2⟩ := ih ⟨st.entries ++ t1, st.fullUrls ++ u1⟩
        refine ⟨t1 ++ t2, u1 ++ u2, ?_⟩
        simp only [include_selected_keys, List.foldl_cons, hk, if_true, h1] at h2 ⊢
        rw [h2]
        simp [List.append_assoc]
      · obtain ⟨t2, u2, h2⟩ := ih ⟨st.entries ++ [(key.1 ++ "/" ++ key.2,
            mkPlaceholder key.1 key.2 spr)],
          st.fullUrls ++ [key.1 ++ "/" ++ key.2]⟩
        refine ⟨(key.1 ++ "/" ++ key.2, mkPlaceholder key.1 key.2 spr) :: t2,
          (key.1 ++ "/" ++ key.2) :: u2, ?_⟩
        simp only [include_selected_keys, List.foldl_cons, hk, Bool.false_eq_true,
          if_false] at h2 ⊢
        rw [h2]
        simp [List.append_assoc]

theorem append_random_observations_shape :
    ∀ (obs : List JSON) (st : BuildSt), ∃ t u,
      append_random_observations obs st = ⟨st.entries ++ t, st.fullUrls ++ u⟩ := by
  intro obs
  induction obs with
  | nil => intro st; exact ⟨[], [], by simp [append_random_observations]⟩
  | cons v rest ih =>
      intro st
      by_cases hv : st.fullUrls.contains ("Observation/" ++ jstr ((jGet v "id").getD .null)) = true
      · obtain ⟨t2, u2, h2⟩ := ih st
        refine ⟨t2, u2, ?_⟩
        simp only [append_random_observations, List.foldl_cons, hv, if_true] at h2 ⊢
        exact h2
      · obtain ⟨t2, u2, h2⟩ := ih ⟨st.entries ++ [("Observation/" ++
            jstr ((jGet v "id").getD .null), v)],
          st.fullUrls ++ ["Observation/" ++ jstr ((jGet v "id").getD .null)]⟩
        refine ⟨("Observation/" ++ jstr ((jGet v "id").getD .null), v) :: t2,
          ("Observation/" ++ jstr ((jGet v "id").getD .null)) :: u2, ?_⟩
        simp only [append_random_observations, List.foldl_cons, hv, Bool.false_eq_true,
          if_false] at h2 ⊢
        rw [h2]
        simp [List.append_assoc]

theorem build_state_shape (fuel : Nat) (idx : List (RKey × JSON)) (spr : String)
    (keys : List RKey) (rv : Bool) (obs : List JSON) (st : BuildSt) : ∃ t u,
    (if rv then append_random_observations obs (include_selected_keys fuel idx spr keys st)
     else include_selected_keys fuel idx spr keys st) = ⟨st.entries ++ t, st.fullUrls ++ u⟩ := by
  obtain ⟨t1, u1, h1⟩ := include_selected_keys_shape fuel idx spr keys st
  cases rv with
  | false => exact ⟨t1, u1, by simp [h1]⟩
  | true =>
      obtain ⟨t2, u2, h2⟩ := append_random_observations_shape obs
        ⟨st.entries ++ t1, st.fullUrls ++ u1⟩
      refine ⟨t1 ++ t2, u1 ++ u2, ?_⟩
      simp only [if_true, h1, h2]
      simp [List.append_assoc]

/-- C10: every bundle returned by `build_composition_and_bundle` — for every
index, template, random draw and fuel — has the freshly generated synthetic
Patient as its second entry, whose full identifier is `Patient/<id>`; the
returned Composition (the first entry's resource) carries exactly that full
identifier as its `subject.reference`, so the subject always resolves to a
present Patient entry. -/
theorem C10_synthetic_patient
    (resources_by_key : List (RKey × JSON)) (composition_template : Option JSON)
    (pid gender : String) (byear : Int) (comp_uuid now_title now_date ts : String)
    (selected_sections : List JSON) (select_entries : List JSON → List JSON)
    (f1 f2 : String) (randomize_values : Bool) (extra_obs : List JSON) (fuel : Nat) :
    entryFullUrl ((jEntriesOf (build_composition_and_bundle resources_by_key
        composition_template pid gender byear comp_uuid now_title now_date ts
        selected_sections select_entries f1 f2 randomize_values extra_obs fuel)).getD 1 .null) =
      some ("Patient/" ++ pid) ∧
    resourceTypeOf (entryResource ((jEntriesOf (build_composition_and_bundle resources_by_key
        composition_template pid gender byear comp_uuid now_title now_date ts
        selected_sections select_entries f1 f2 randomize_values extra_obs fuel)).getD 1 .null)) =
      some (.str "Patient") ∧
    resourceTypeOf (returned_composition (build_composition_and_bundle resources_by_key
        composition_template pid gender byear comp_uuid now_title now_date ts
        selected_sections select_entries f1 f2 randomize_values extra_obs fuel)) =
      some (.str "Composition") ∧
    subjectRefOf (returned_composition (build_composition_and_bundle resources_by_key
        composition_template pid gender byear comp_uuid now_title now_date ts
        selected_sections select_entries f1 f2 randomize_values extra_obs fuel)) =
      some (.str ("Patient/" ++ pid)) := by
  obtain ⟨T, U, hsh⟩ := build_state_shape fuel resources_by_key ("Patient/" ++ pid)
    (build_sections composition_template selected_sections select_entries f1 f2).2
    randomize_values extra_obs
    (initial_bundle_state ("generated-comp-" ++ comp_uuid)
      (mk_composition ("generated-comp-" ++ comp_uuid) now_title now_date ("Patient/" ++ pid)
        (build_sections composition_template selected_sections select_entries f1 f2).1)
      ("Patient/" ++ pid) (generate_synthetic_patient pid gender byear))
  have hP : pyStartsWith "Patient" "Patient/" = false := by decide
  have hC : pyStartsWith "Composition" "Patient/" = false := by decide
  simp only [build_composition_and_bundle]
  rw [hsh]
  simp only [initial_bundle_state]
  simp [hP, hC, mkBundleJSON, mkEntryJSON, mk_composition, generate_synthetic_patient, jobj, jarr,
    JObj.ofList, JArr.ofList, JArr.toList, normalize_patient_refs_in_resource, normPatO,
    normPatA, jEntriesOf, jGetList, jGet, JObj.get, jSetEntries, JObj.setKey,
    entryFullUrl, entryResource, returned_composition, resourceTypeOf, subjectRefOf,
    pyStartsWith_append, List.getD, List.map, List.append]
